import Mathlib

/-!
Shallow embedding of the NeoOS process/thread execution core
(src/kernel/src/process/thread.rs) and the debug stack unwinder
(src/kernel/src/debug.rs), together with proofs about the claims of the
specification.

Machine integers are modelled as `Nat` with explicit `% 2 ^ 64` where
wrapping matters.  `Arc<Mutex<...>>` shared state is modelled by explicit
value passing: functions take the current value of the shared cell and
return the updated value.  A Rust `panic!`/`unwrap` failure is modelled by
a dedicated outcome (`none` or a `panic` constructor), never by a value.
-/

namespace NeoOS

/-- Error codes of the kernel, as used in the source files
(`Errno::EBUSY`, `Errno::EEXIST`, `Errno::EINVAL`, ...) plus the standard
POSIX name `ENOENT` ("no such entity / not found"), which the spec's
`NotFound` taxonomy entry designates. -/
inductive Errno where
  | EBUSY
  | EEXIST
  | EINVAL
  | ENOENT
  | EBADF
  | ENODEV
deriving DecidableEq, Repr

/-- Follows the spec's words: the typed error the spec calls `NotFound`
("no current thread for this CPU, or no thread for a given id"), i.e. the
POSIX not-found errno.  Kept separate from the source-derived definitions
so the code's actual errno can be compared against it. -/
def spec_notfound_errno : Errno := Errno.ENOENT

/-- Follows the spec's words: the typed error the spec calls
`InvalidState` (operations attempted against an absent context, i.e. a
double-take), i.e. the POSIX invalid-argument errno. -/
def spec_invalidstate_errno : Errno := Errno.EINVAL

/-- KResult from error.rs: `Result<T, Errno>`. -/
abbrev KResult (α : Type) := Except Errno α

/-- Value of `u64::MAX`. -/
def U64_MAX : Nat := 2 ^ 64 - 1

/-- General-purpose register file of the saved user context
(`Context.regs`, arch::interrupt).  Modelled from the spec: the arch
module is not under src/, only its use in thread.rs is (`ctx.regs.rax`,
`ctx.regs.rflags`); the spec describes the context as a full user-mode
register snapshot. -/
structure GeneralRegs where
  rax : Nat
  rbx : Nat
  rcx : Nat
  rdx : Nat
  rsi : Nat
  rdi : Nat
  rbp : Nat
  rsp : Nat
  r8 : Nat
  r9 : Nat
  r10 : Nat
  r11 : Nat
  r12 : Nat
  r13 : Nat
  r14 : Nat
  r15 : Nat
  rip : Nat
  rflags : Nat
deriving DecidableEq, Repr

/-- Saved user-mode trap frame (`arch::interrupt::Context`).  Modelled
from the spec: a user-mode register/trap-frame snapshot; thread.rs reads
`regs.rax`, `regs.rflags` and `trapno` from it. -/
structure Context where
  regs : GeneralRegs
  trapno : Nat
  error_code : Nat
deriving DecidableEq, Repr

/-- Floating point state (`arch::cpu::FpState`).  Modelled from the spec:
an opaque floating-point register blob; only `FpState::new()` is used by
thread.rs. -/
def FpState : Type := Nat

instance : DecidableEq FpState := inferInstanceAs (DecidableEq Nat)

/-- FpState::new(): a fresh (zeroed) floating point state. -/
def FpState.new : FpState := (0 : Nat)

/-- ThreadContext from thread.rs: the boxed user context plus the boxed
floating point state. -/
structure ThreadContext where
  user_context : Context
  fp_state : FpState
deriving DecidableEq

/-- Signal set (`signal::SigSet`).  Modelled from the spec: a set of
signals; thread.rs only copies it around (`SigSet::default()`,
`SigSet::new()` both denote the empty set). -/
def SigSet : Type := Nat

instance : DecidableEq SigSet := inferInstanceAs (DecidableEq Nat)

/-- SigSet::default() / SigSet::new(): empty signal set. -/
def SigSet.empty : SigSet := (0 : Nat)

/-- ThreadInner from thread.rs. -/
structure ThreadInner where
  sigmask : SigSet
  thread_context : Option ThreadContext
  sigaltstack : Nat
deriving DecidableEq

/-- Process, as constructed field by field inside `Thread::fork` and
`Thread::from_raw` in thread.rs (the struct declaration itself lives in
process/mod.rs, outside src/; the field list below is exactly the list of
fields fork initialises).  `vm` is the content snapshot of the memory
manager; `parent` is (parent process id, weak reference modelled as the
referenced process id); `children` entries are (child thread id,
weak-referenced child process id). -/
structure Process where
  process_id : Nat
  process_group_id : Nat
  threads : List Nat
  vm : Nat
  exec_path : String
  pwd : String
  opened_files : List (Nat × Nat)
  exit_code : Nat
  event_bus : List Nat
  futexes : List (Nat × Nat)
  parent : Nat × Option Nat
  children : List (Nat × Nat)
  pending_sigset : SigSet
  sig_queue : List Nat
  actions : List Nat
deriving DecidableEq

/-- Thread from thread.rs.  `parent` holds the current value of the
`Arc<Mutex<Process>>` cell, `inner` the value of the
`Arc<Mutex<ThreadInner>>` cell, `vm` the memory-manager content. -/
structure Thread where
  id : Nat
  parent : Process
  inner : ThreadInner
  vm : Nat
deriving DecidableEq

/-- The global thread table THREAD_TABLE: a `BTreeMap<u64, Arc<Thread>>`,
modelled as a key-sorted association list. -/
abbrev ThreadTable := List (Nat × Thread)

/-- BTreeMap::get. -/
def tblGet (k : Nat) : ThreadTable → Option Thread
  | [] => none
  | (k0, v0) :: rest => if k = k0 then some v0 else tblGet k rest

/-- BTreeMap::insert: overwrites the value if the key is present, keeps
keys sorted. -/
def tblInsert (k : Nat) (v : Thread) : ThreadTable → ThreadTable
  | [] => [(k, v)]
  | (k0, v0) :: rest =>
    if k < k0 then (k, v) :: (k0, v0) :: rest
    else if k = k0 then (k, v) :: rest
    else (k0, v0) :: tblInsert k v rest

/-- The global process table maintained by `process::register`.  Modelled
from the spec: "Registers the new process globally"; the register function
itself is in process/mod.rs, outside src/. -/
abbrev ProcessTable := List (Nat × Process)

/-- Insert into the global process table (overwrite on equal key). -/
def procInsert (k : Nat) (v : Process) : ProcessTable → ProcessTable
  | [] => [(k, v)]
  | (k0, v0) :: rest =>
    if k < k0 then (k, v) :: (k0, v0) :: rest
    else if k = k0 then (k, v) :: rest
    else (k0, v0) :: procInsert k v rest

/-- Helper for find_available_tid: scan `fuel` candidate ids starting at
`i`, returning the first id absent from the table (the behaviour of
`(1u64..).find(|id| THREAD_TABLE.read().get(id).is_none())` restricted to
`fuel` candidates). -/
def findFreeFrom (tbl : ThreadTable) : Nat → Nat → Option Nat
  | 0, _ => none
  | fuel + 1, i => if tblGet i tbl = none then some i else findFreeFrom tbl fuel (i + 1)

/-- find_available_tid from thread.rs: the first unused id ascending from
1 over the u64 id space, `Errno::EBUSY` if every id is taken. -/
def find_available_tid (tbl : ThreadTable) : KResult Nat :=
  match findFreeFrom tbl U64_MAX 1 with
  | some i => Except.ok i
  | none => Except.error Errno.EBUSY

/-- Granularity constant of `sleep` (TIME_SLICE = 10_000). -/
def TIME_SLICE : Nat := 10000

/-- Number of `countdown(TIME_SLICE)` iterations `sleep(duration)`
performs, for a duration of `ms` milliseconds:
`(duration.as_millis() / TIME_SLICE).min(u64::MAX as u128) as u64`. -/
def sleepTickCount (ms : Nat) : Nat := min (ms / TIME_SLICE) U64_MAX

/-- The sequence of countdown arguments issued by `sleep(duration)`: one
`countdown(TIME_SLICE)` call per loop iteration. -/
def sleepCountdownCalls (ms : Nat) : List Nat :=
  List.replicate (sleepTickCount ms) TIME_SLICE

/-- Number of countdown ticks the spec sentence asks for.  Follows the
spec's words ("fixed 10-millisecond ticks (rounding down to whole
ticks)"): floor of the duration in milliseconds divided by 10. -/
def spec_sleep_ticks (ms : Nat) : Nat := ms / 10

/-- Outcome of `Thread::take`.  The source returns the context and empties
the cell on success and panics (`unwrap` on `None`) when the context is
absent; `err` is the outcome the spec's claim asserts instead (a typed
error returned to the caller) and is never produced by the code. -/
inductive TakeResult where
  | ok (ctx : ThreadContext) (inner : ThreadInner)
  | panic
  | err (e : Errno)
deriving DecidableEq

/-- Thread::take: `self.inner.lock().thread_context.take().unwrap()`. -/
def Thread.take (inner : ThreadInner) : TakeResult :=
  match inner.thread_context with
  | some c => TakeResult.ok c { inner with thread_context := none }
  | none => TakeResult.panic

/-- Thread::restore: `self.inner.lock().thread_context.replace(ctx)`
(stores unconditionally, discarding any previous value). -/
def Thread.restore (inner : ThreadInner) (ctx : ThreadContext) : ThreadInner :=
  { inner with thread_context := some ctx }

/-- Thread::register from thread.rs: if the id is 0 a fresh id is chosen
by find_available_tid, otherwise the preset id is kept; the thread is
inserted into the table under that id (overwriting any entry there). -/
def Thread.register (t : Thread) (tbl : ThreadTable) : KResult (Thread × ThreadTable) :=
  match (if t.id = 0 then find_available_tid tbl else Except.ok t.id) with
  | Except.error e => Except.error e
  | Except.ok id =>
    let t2 := { t with id := id }
    Except.ok (t2, tblInsert id t2 tbl)

/-- current() from thread.rs:
`CURRENT_THREAD_PER_CPU[cpu_id()].as_ref().ok_or(Errno::EEXIST)?.clone()`.
`slots` is the per-CPU current-thread array, `cid` the calling CPU id. -/
def current (slots : Nat → Option Thread) (cid : Nat) : KResult Thread :=
  match slots cid with
  | none => Except.error Errno.EEXIST
  | some t => Except.ok t

/-- Result of `Thread::fork`: the child thread handle, the parent thread
after the call (its process gained a child entry), and the updated global
tables. -/
structure ForkResult where
  child : Thread
  parentAfter : Thread
  table : ThreadTable
  procTable : ProcessTable
deriving DecidableEq

/-- Thread::fork from thread.rs.  `none` models the panics (`unwrap`) on
id exhaustion / registration failure.  The `Arc<Mutex<Process>>` of the
child is shared between the child thread, the thread table entry and the
process table entry; the source pushes the child thread id into
`thread.parent.lock().threads` after registering, so the value model
records the final post-push value of that shared cell everywhere. -/
def Thread.fork (t : Thread) (context : Context) (tbl : ThreadTable)
    (ptbl : ProcessTable) : Option ForkResult :=
  -- Cow the vm: a fresh Arc around a clone of the contents.
  let vm := t.vm
  -- let mut ctx = context.clone(); ctx.regs.rax = 0;
  let ctx := { context with regs := { context.regs with rax := 0 } }
  match find_available_tid tbl with
  | Except.error _ => none
  | Except.ok id =>
    let forkedProcess : Process :=
      { process_id := id
        process_group_id := t.parent.process_group_id
        threads := []
        vm := vm
        exec_path := t.parent.exec_path
        pwd := t.parent.pwd
        opened_files := []
        exit_code := 0
        event_bus := []
        futexes := []
        parent := (t.parent.process_id, some t.parent.process_id)
        children := []
        pending_sigset := SigSet.empty
        sig_queue := []
        actions := t.parent.actions }
    let childInner : ThreadInner :=
      { sigmask := t.inner.sigmask
        thread_context := some { user_context := ctx, fp_state := FpState.new }
        sigaltstack := t.inner.sigaltstack }
    let thread0 : Thread := { id := id, parent := forkedProcess, inner := childInner, vm := vm }
    match Thread.register thread0 tbl with
    | Except.error _ => none
    | Except.ok (thread1, _) =>
      -- thread.parent.lock().threads.push(id): final value of the shared cell.
      let childProc := { forkedProcess with threads := [id] }
      let child := { thread1 with parent := childProc }
      -- lock.children.push((thread.id, Arc::downgrade(&thread.parent)))
      let parentProcAfter :=
        { t.parent with children := t.parent.children ++ [(thread1.id, id)] }
      some
        { child := child
          parentAfter := { t with parent := parentProcAfter }
          table := tblInsert id child tbl
          procTable := procInsert id childProc ptbl }

/-! The debug stack unwinder, debug.rs. -/

/-- Frame from debug.rs: backtrace-relevant register values. -/
structure Frame where
  rip : Nat
  rsp : Nat
  rbp : Nat
deriving DecidableEq, Repr

/-- Environment of the unwinder: the readable memory (a u64 load per byte
address) and the address-range constants.  `stackLo`/`stackHi` are the
bounds consulted by `memory::check_within_stack`, `guardLo`/`guardHi` the
linker symbols `__guard_bottom`/`__guard_top`; none of these are under
src/, so they are kept abstract parameters. -/
structure UnwindEnv where
  mem : Nat → Nat
  stackLo : Nat
  stackHi : Nat
  guardLo : Nat
  guardHi : Nat

/-- Modelled from the spec: `memory::check_within_stack` (not under src/)
decides whether an address lies within the statically known valid stack
range; the spec's boundary scenario treats addresses exactly at the bounds
as outside the valid range, so the bounds are strict. -/
def check_within_stack (env : UnwindEnv) (addr : Nat) : Bool :=
  decide (env.stackLo < addr) && decide (addr < env.stackHi)

/-- Observable behaviour of one `unwind` call: the printed
(call-site rip, rbp) pairs in order, every dereferenced byte address in
order, whether the "No stack trace available" message was printed, and
whether the call actually returned (`completed = false` means the given
fuel was exhausted before the loop finished). -/
structure UnwindTrace where
  printed : List (Nat × Nat)
  derefs : List Nat
  noTrace : Bool
  completed : Bool
deriving DecidableEq, Repr

/-- The printed instruction pointer: `ip - size_of::<u64>()` with u64
wrapping subtraction. -/
def printBack (ip : Nat) : Nat := (ip + (2 ^ 64 - 8)) % 2 ^ 64

/-- The while loop of `Frame::unwind`, driven by explicit fuel.  State:
`prevIp`, `bp`, `ip`, `curDepth` as in the source; `printed` and `derefs`
accumulate the observations in reverse. -/
def unwindLoop (env : UnwindEnv) (depth : Nat) :
    Nat → Nat → Nat → Nat → Nat → List (Nat × Nat) → List Nat → UnwindTrace
  | 0, _, _, _, _, printed, derefs =>
    { printed := printed.reverse, derefs := derefs.reverse
      noTrace := false, completed := false }
  | fuel + 1, prevIp, bp, ip, curDepth, printed, derefs =>
    -- while cur_depth != depth && ip <= __guard_top && ip >= __guard_bottom
    if curDepth = depth ∨ ¬(env.guardLo ≤ ip ∧ ip ≤ env.guardHi) then
      { printed := printed.reverse, derefs := derefs.reverse
        noTrace := false, completed := true }
    else
      let printed2 := if prevIp = ip then printed else (printBack ip, bp) :: printed
      let prevIp2 := if prevIp = ip then prevIp else ip
      let curDepth2 := if prevIp = ip then curDepth else curDepth + 1
      if check_within_stack env bp then
        -- ip = *(bp + 8); bp = *bp;
        unwindLoop env depth fuel prevIp2 (env.mem bp) (env.mem (bp + 8)) curDepth2
          printed2 (bp :: (bp + 8) :: derefs)
      else
        { printed := printed2.reverse, derefs := derefs.reverse
          noTrace := false, completed := true }

/-- Frame::unwind from debug.rs.  The initial range check guards the
`self.ra()` read at `rbp + 8`; `fuel` bounds the number of loop iterations
observed (the source loop itself has no such bound). -/
def Frame.unwind (env : UnwindEnv) (f : Frame) (depth : Nat) (fuel : Nat) : UnwindTrace :=
  if check_within_stack env f.rbp then
    let ip := env.mem (f.rbp + 8)
    unwindLoop env depth fuel 0 f.rbp ip 0 [] [f.rbp + 8]
  else
    { printed := [], derefs := [], noTrace := true, completed := true }

/-! Concrete fixtures used by witnesses and counterexamples. -/

/-- A concrete register file with a nonzero return-value register. -/
def regs0 : GeneralRegs :=
  { rax := 42, rbx := 1, rcx := 2, rdx := 3, rsi := 4, rdi := 5, rbp := 6
    rsp := 7, r8 := 8, r9 := 9, r10 := 10, r11 := 11, r12 := 12, r13 := 13
    r14 := 14, r15 := 15, rip := 16, rflags := 0x3202 }

/-- A concrete saved user context. -/
def ctx0 : Context := { regs := regs0, trapno := 3, error_code := 0 }

/-- A concrete thread context. -/
def tc0 : ThreadContext := { user_context := ctx0, fp_state := FpState.new }

/-- A thread inner whose context is present. -/
def inner0 : ThreadInner :=
  { sigmask := SigSet.empty, thread_context := some tc0, sigaltstack := 0 }

/-- A thread inner whose context is absent (as after a take). -/
def innerEmpty : ThreadInner :=
  { sigmask := SigSet.empty, thread_context := none, sigaltstack := 0 }

/-- A concrete parent process with a nonempty open-file table. -/
def proc0 : Process :=
  { process_id := 5, process_group_id := 5, threads := [5], vm := 11
    exec_path := "/bin/sh", pwd := "/", opened_files := [(3, 7)], exit_code := 0
    event_bus := [], futexes := [], parent := (1, none), children := []
    pending_sigset := SigSet.empty, sig_queue := [], actions := List.replicate 65 0 }

/-- A concrete registered parent thread. -/
def th0 : Thread := { id := 5, parent := proc0, inner := inner0, vm := 11 }

/-- A thread table holding only the parent thread. -/
def tbl0 : ThreadTable := [(5, th0)]

/-! Helper lemmas about id search. -/

/-- A successful findFreeFrom scan returns a free id at least `start` and
every smaller candidate from `start` on is occupied. -/
lemma findFreeFrom_some {tbl : ThreadTable} :
    ∀ {fuel start i : Nat}, findFreeFrom tbl fuel start = some i →
      tblGet i tbl = none ∧ start ≤ i ∧
        ∀ j, start ≤ j → j < i → tblGet j tbl ≠ none := by
  intro fuel
  induction fuel with
  | zero => intro start i h; simp [findFreeFrom] at h
  | succ n ih =>
    intro start i h
    by_cases hg : tblGet start tbl = none
    · rw [findFreeFrom, if_pos hg] at h
      cases h
      exact ⟨hg, Nat.le_refl _, fun j hj1 hj2 => absurd hj2 (Nat.not_lt.mpr hj1)⟩
    · rw [findFreeFrom, if_neg hg] at h
      obtain ⟨h1, h2, h3⟩ := ih h
      refine ⟨h1, by omega, fun j hj1 hj2 => ?_⟩
      rcases Nat.eq_or_lt_of_le hj1 with he | hl
      · exact he ▸ hg
      · exact h3 j hl hj2

/-- If every candidate in the scanned window is occupied, the scan fails. -/
lemma findFreeFrom_none {tbl : ThreadTable} :
    ∀ fuel start, (∀ j, start ≤ j → j < start + fuel → tblGet j tbl ≠ none) →
      findFreeFrom tbl fuel start = none := by
  intro fuel
  induction fuel with
  | zero => intro start _; rfl
  | succ n ih =>
    intro start h
    have hg : tblGet start tbl ≠ none := h start (Nat.le_refl _) (by omega)
    rw [findFreeFrom, if_neg hg]
    exact ih (start + 1) (fun j hj1 hj2 => h j (by omega) (by omega))

/-- A successful find_available_tid yields the least unused id, which is
at least 1. -/
lemma find_available_tid_ok {tbl : ThreadTable} {id : Nat}
    (h : find_available_tid tbl = Except.ok id) :
    tblGet id tbl = none ∧ 1 ≤ id ∧ ∀ j, 1 ≤ j → j < id → tblGet j tbl ≠ none := by
  unfold find_available_tid at h
  cases hf : findFreeFrom tbl U64_MAX 1 with
  | none => rw [hf] at h; cases h
  | some i =>
    rw [hf] at h
    cases h
    exact findFreeFrom_some hf

/-! Claim C1: tick count of sleep. -/

/-- C1: the spec claims sleep(d) performs floor(d in ms / 10) ticks of
10 ms each, so sleep(25 ms) must perform 2 ticks.  The code divides the
duration in milliseconds by TIME_SLICE = 10000, so sleep(25 ms) performs
0 countdown ticks: the code diverges from the claim (and from its own
"granularity is 10 ms" comment and its own doc comment promising to wake
up after the given duration). -/
theorem c1_sleep_tick_count_bug :
    sleepTickCount 25 = 0 ∧ spec_sleep_ticks 25 = 2 ∧
      sleepTickCount 25 ≠ spec_sleep_ticks 25 ∧ sleepCountdownCalls 25 = [] := by
  refine ⟨rfl, rfl, ?_, rfl⟩
  decide

/-! Claim C2: double take. -/

/-- C2 counterexample: on a thread whose stored context is absent, the
second take does not return the typed InvalidState error to the caller as
the claim states; it panics (unwrap on None). -/
theorem c2_take_counterexample :
    Thread.take innerEmpty = TakeResult.panic ∧
      Thread.take innerEmpty ≠ TakeResult.err spec_invalidstate_errno := by
  exact ⟨rfl, by decide⟩

/-- C2 amended: a take on an absent context fails by panicking (and in
particular after a successful take the stored context is absent, so a
second take without an intervening restore panics); take never returns a
typed error and never returns a stale or garbage context. -/
theorem c2_take_amended :
    (∀ inner : ThreadInner, inner.thread_context = none →
       Thread.take inner = TakeResult.panic) ∧
    (∀ (inner : ThreadInner) (ctx : ThreadContext) (inner2 : ThreadInner),
       Thread.take inner = TakeResult.ok ctx inner2 →
       inner2.thread_context = none ∧ Thread.take inner2 = TakeResult.panic ∧
         inner.thread_context = some ctx) ∧
    (∀ (inner : ThreadInner) (e : Errno), Thread.take inner ≠ TakeResult.err e) := by
  refine ⟨fun inner h => ?_, fun inner ctx inner2 h => ?_, fun inner e => ?_⟩
  · unfold Thread.take
    rw [h]
  · unfold Thread.take at h
    cases hc : inner.thread_context with
    | none => rw [hc] at h; cases h
    | some c =>
      rw [hc] at h
      cases h
      exact ⟨rfl, rfl, rfl⟩
  · unfold Thread.take
    cases inner.thread_context <;> simp

/-- C2 witness: taking the concrete present context empties the slot and a
second take panics. -/
theorem c2_take_amended_witness :
    innerEmpty.thread_context = none ∧ Thread.take innerEmpty = TakeResult.panic ∧
      inner0.thread_context = some tc0 :=
  c2_take_amended.2.1 inner0 tc0 innerEmpty rfl

/-! Claim C8: current thread lookup. -/

/-- C8 counterexample: with the calling CPU's slot empty, current() does
not return the not-found errno the spec's NotFound names; it returns
Errno::EEXIST. -/
theorem c8_current_counterexample :
    current (fun _ => none) 0 = Except.error Errno.EEXIST ∧
      Errno.EEXIST ≠ spec_notfound_errno := by
  exact ⟨rfl, by decide⟩

/-- C8 amended: when the per-CPU slot is empty, current() returns the
typed error Errno::EEXIST (not a not-found errno); when the slot is
occupied it returns a handle to that thread. -/
theorem c8_current_amended :
    ∀ (slots : Nat → Option Thread) (cid : Nat),
      (slots cid = none → current slots cid = Except.error Errno.EEXIST) ∧
      (∀ t : Thread, slots cid = some t → current slots cid = Except.ok t) := by
  intro slots cid
  constructor
  · intro h; unfold current; rw [h]
  · intro t h; unfold current; rw [h]

/-- C8 witness: a concrete occupied slot yields the stored handle. -/
theorem c8_current_amended_witness :
    current (fun i => if i = 0 then some th0 else none) 0 = Except.ok th0 :=
  (c8_current_amended (fun i => if i = 0 then some th0 else none) 0).2 th0 rfl

/-! Claim C5: id assignment and overwrite on register. -/

/-- Thread A, registered without an explicit id. -/
def thA : Thread := { id := 0, parent := proc0, inner := innerEmpty, vm := 11 }

/-- Thread A after register assigned it id 1. -/
def thA1 : Thread := { thA with id := 1 }

/-- Thread B, registered with explicit id 1. -/
def thB : Thread := { id := 1, parent := proc0, inner := innerEmpty, vm := 12 }

/-- Thread C, registered without an explicit id while id 1 is taken. -/
def thC : Thread := { id := 0, parent := proc0, inner := innerEmpty, vm := 13 }

/-- Thread C after register assigned it id 2. -/
def thC2 : Thread := { thC with id := 2 }

/-- C5: a register with id 0 assigns the least unused id ascending from 1
and inserts under it; an exhausted id space (every id in 1..=u64::MAX
taken) makes the id search fail with the no-ids-available error
Errno::EBUSY; a register with an explicit nonzero id inserts under that
id, overwriting any existing entry; and the concrete scenario A (auto id),
B (explicit id 1), C (auto id) produces the tables claimed by the spec. -/
theorem c5_register_policy :
    (∀ (t : Thread) (tbl : ThreadTable) (id : Nat), t.id = 0 →
       find_available_tid tbl = Except.ok id →
       Thread.register t tbl =
           Except.ok ({ t with id := id }, tblInsert id { t with id := id } tbl) ∧
         tblGet id tbl = none ∧ 1 ≤ id ∧
         ∀ j, 1 ≤ j → j < id → tblGet j tbl ≠ none) ∧
    (∀ tbl : ThreadTable, (∀ j, 1 ≤ j → j ≤ U64_MAX → tblGet j tbl ≠ none) →
       find_available_tid tbl = Except.error Errno.EBUSY) ∧
    (∀ (t : Thread) (tbl : ThreadTable), t.id ≠ 0 →
       Thread.register t tbl = Except.ok (t, tblInsert t.id t tbl)) ∧
    (Thread.register thA [] = Except.ok (thA1, [(1, thA1)]) ∧
     Thread.register thB [(1, thA1)] = Except.ok (thB, [(1, thB)]) ∧
     Thread.register thC [(1, thB)] = Except.ok (thC2, [(1, thB), (2, thC2)])) := by
  refine ⟨fun t tbl id ht hf => ?_, fun tbl h => ?_, fun t tbl ht => ?_, rfl, rfl, rfl⟩
  · obtain ⟨h1, h2, h3⟩ := find_available_tid_ok hf
    refine ⟨?_, h1, h2, h3⟩
    unfold Thread.register
    rw [if_pos ht, hf]
  · unfold find_available_tid
    rw [findFreeFrom_none U64_MAX 1 (fun j hj1 hj2 => h j hj1 (by omega))]
  · unfold Thread.register
    rw [if_neg ht]

/-- C5 witness: registering the concrete thread A with no preset id
assigns id 1 and yields the one-entry table. -/
theorem c5_register_policy_witness :
    Thread.register thA [] = Except.ok (thA1, [(1, thA1)]) :=
  (c5_register_policy.1 thA [] 1 rfl rfl).1

/-! Helper lemmas about register and fork, shared by several claims. -/

/-- Registering a thread with a preset nonzero id keeps the id and inserts
under it. -/
lemma register_nonzero (t : Thread) (tbl : ThreadTable) (ht : t.id ≠ 0) :
    Thread.register t tbl = Except.ok (t, tblInsert t.id t tbl) := by
  unfold Thread.register
  rw [if_neg ht]

/-- Structural description of a successful fork: the fresh id, the child
thread, the parent after the call, and the updated tables. -/
lemma fork_spec {t : Thread} {ctx : Context} {tbl : ThreadTable} {ptbl : ProcessTable}
    {r : ForkResult} (h : Thread.fork t ctx tbl ptbl = some r) :
    ∃ id, find_available_tid tbl = Except.ok id ∧ 1 ≤ id ∧ tblGet id tbl = none ∧
      r.child.id = id ∧
      r.child.parent =
        { process_id := id
          process_group_id := t.parent.process_group_id
          threads := [id]
          vm := t.vm
          exec_path := t.parent.exec_path
          pwd := t.parent.pwd
          opened_files := []
          exit_code := 0
          event_bus := []
          futexes := []
          parent := (t.parent.process_id, some t.parent.process_id)
          children := []
          pending_sigset := SigSet.empty
          sig_queue := []
          actions := t.parent.actions } ∧
      r.child.inner =
        { sigmask := t.inner.sigmask
          thread_context :=
            some { user_context := { ctx with regs := { ctx.regs with rax := 0 } }
                   fp_state := FpState.new }
          sigaltstack := t.inner.sigaltstack } ∧
      r.child.vm = t.vm ∧
      r.parentAfter =
        { t with parent :=
            { t.parent with children := t.parent.children ++ [(id, id)] } } ∧
      r.table = tblInsert id r.child tbl ∧
      r.procTable = procInsert id r.child.parent ptbl := by
  cases hf : find_available_tid tbl with
  | error e =>
    exfalso
    unfold Thread.fork at h
    rw [hf] at h
    simp at h
  | ok id =>
    obtain ⟨h1, h2, h3⟩ := find_available_tid_ok hf
    have hid : id ≠ 0 := by omega
    unfold Thread.fork at h
    rw [hf] at h
    dsimp only at h
    rw [register_nonzero _ tbl hid] at h
    dsimp only at h
    cases h
    exact ⟨id, rfl, h2, h1, rfl, rfl, rfl, rfl, rfl, rfl, rfl⟩

/-- The result of the concrete fork of th0 with context ctx0 over the
table tbl0 (the fallback branch is never taken: the fork succeeds). -/
def forkResW : ForkResult :=
  match Thread.fork th0 ctx0 tbl0 [] with
  | some r => r
  | none => { child := th0, parentAfter := th0, table := [], procTable := [] }

/-! Claim C4: the forked child's saved registers. -/

/-- C4: the child thread stored by fork carries a saved register state
that is bit-identical to the passed context except that the return-value
register rax is exactly zero (and a fresh floating point state). -/
theorem c4_fork_child_rax_zero :
    ∀ (t : Thread) (ctx : Context) (tbl : ThreadTable) (ptbl : ProcessTable)
      (r : ForkResult),
      Thread.fork t ctx tbl ptbl = some r →
      r.child.inner.thread_context =
        some { user_context := { ctx with regs := { ctx.regs with rax := 0 } }
               fp_state := FpState.new } := by
  intro t ctx tbl ptbl r h
  obtain ⟨id, _, _, _, _, _, hinner, _⟩ := fork_spec h
  rw [hinner]

/-- C4 witness: the concrete fork stores ctx0 with rax zeroed. -/
theorem c4_fork_child_rax_zero_witness :
    forkResW.child.inner.thread_context =
      some { user_context := { ctx0 with regs := { ctx0.regs with rax := 0 } }
             fp_state := FpState.new } :=
  c4_fork_child_rax_zero th0 ctx0 tbl0 [] forkResW rfl

/-! Claim C7: structure of the forked process. -/

/-- C7 counterexample: the parent's open-file table is nonempty but the
forked child process starts with an empty open-file table, so the child is
not a clone of the parent's open-file state as the claim asserts. -/
theorem c7_fork_files_counterexample :
    Thread.fork th0 ctx0 tbl0 [] = some forkResW ∧
      th0.parent.opened_files = [(3, 7)] ∧
      forkResW.child.parent.opened_files = [] ∧
      forkResW.child.parent.opened_files ≠ th0.parent.opened_files := by
  refine ⟨rfl, rfl, rfl, ?_⟩
  decide

/-- C7 amended: fork creates a child process with a clone of the address
space, cloned working-directory, executable-path and signal-action state,
and fresh empty queues for pending signals, children and futexes; the
open-file table of the child is fresh and empty rather than cloned. -/
theorem c7_fork_structural_copy :
    ∀ (t : Thread) (ctx : Context) (tbl : ThreadTable) (ptbl : ProcessTable)
      (r : ForkResult),
      Thread.fork t ctx tbl ptbl = some r →
      r.child.parent.process_group_id = t.parent.process_group_id ∧
      r.child.parent.vm = t.vm ∧
      r.child.vm = t.vm ∧
      r.child.parent.exec_path = t.parent.exec_path ∧
      r.child.parent.pwd = t.parent.pwd ∧
      r.child.parent.actions = t.parent.actions ∧
      r.child.parent.opened_files = [] ∧
      r.child.parent.pending_sigset = SigSet.empty ∧
      r.child.parent.sig_queue = [] ∧
      r.child.parent.children = [] ∧
      r.child.parent.futexes = [] ∧
      r.child.parent.event_bus = [] := by
  intro t ctx tbl ptbl r h
  obtain ⟨id, _, _, _, _, hproc, _, hvm, _⟩ := fork_spec h
  simp [hproc, hvm]

/-- C7 witness: the concrete fork exhibits the amended structure. -/
theorem c7_fork_structural_copy_witness :
    forkResW.child.parent.process_group_id = th0.parent.process_group_id ∧
      forkResW.child.parent.vm = th0.vm ∧
      forkResW.child.vm = th0.vm ∧
      forkResW.child.parent.exec_path = th0.parent.exec_path ∧
      forkResW.child.parent.pwd = th0.parent.pwd ∧
      forkResW.child.parent.actions = th0.parent.actions ∧
      forkResW.child.parent.opened_files = [] ∧
      forkResW.child.parent.pending_sigset = SigSet.empty ∧
      forkResW.child.parent.sig_queue = [] ∧
      forkResW.child.parent.children = [] ∧
      forkResW.child.parent.futexes = [] ∧
      forkResW.child.parent.event_bus = [] :=
  c7_fork_structural_copy th0 ctx0 tbl0 [] forkResW rfl

/-! Claim C9: fork leaves the parent context untouched. -/

/-- C9: after a fork the parent thread's id, stored context cell and
address space are bit-identical to their values before the call (the only
field the call updates is its process's children list). -/
theorem c9_fork_parent_unchanged :
    ∀ (t : Thread) (ctx : Context) (tbl : ThreadTable) (ptbl : ProcessTable)
      (r : ForkResult),
      Thread.fork t ctx tbl ptbl = some r →
      r.parentAfter.inner = t.inner ∧
      r.parentAfter.inner.thread_context = t.inner.thread_context ∧
      r.parentAfter.id = t.id ∧ r.parentAfter.vm = t.vm := by
  intro t ctx tbl ptbl r h
  obtain ⟨id, _, _, _, _, _, _, _, hpar, _, _⟩ := fork_spec h
  rw [hpar]
  exact ⟨rfl, rfl, rfl, rfl⟩

/-- C9 witness: the concrete fork leaves th0's context cell unchanged. -/
theorem c9_fork_parent_unchanged_witness :
    forkResW.parentAfter.inner = th0.inner ∧
      forkResW.parentAfter.inner.thread_context = th0.inner.thread_context ∧
      forkResW.parentAfter.id = th0.id ∧ forkResW.parentAfter.vm = th0.vm :=
  c9_fork_parent_unchanged th0 ctx0 tbl0 [] forkResW rfl

/-! Claim C10: one fresh id for both the child process and thread. -/

/-- C10: fork allocates a single fresh identifier (the one taken from the
thread-id search, unused in the thread table) and uses it both as the
child process id and the child thread id, records it in the child's thread
list and appends it to the parent's children list. -/
theorem c10_fork_single_fresh_id :
    ∀ (t : Thread) (ctx : Context) (tbl : ThreadTable) (ptbl : ProcessTable)
      (r : ForkResult),
      Thread.fork t ctx tbl ptbl = some r →
      r.child.id = r.child.parent.process_id ∧
      find_available_tid tbl = Except.ok r.child.id ∧
      tblGet r.child.id tbl = none ∧
      r.child.parent.threads = [r.child.id] ∧
      r.parentAfter.parent.children =
        t.parent.children ++ [(r.child.id, r.child.parent.process_id)] := by
  intro t ctx tbl ptbl r h
  obtain ⟨id, hf, h1, hfree, hcid, hproc, _, _, hpar, _, _⟩ := fork_spec h
  subst hcid
  refine ⟨?_, hf, hfree, ?_, ?_⟩ <;> simp [hproc, hpar]

/-- C10 witness: the concrete fork uses the single fresh id 1 for the
child thread, the child process, its thread list and the parent's children
list. -/
theorem c10_fork_single_fresh_id_witness :
    forkResW.child.id = forkResW.child.parent.process_id ∧
      find_available_tid tbl0 = Except.ok forkResW.child.id ∧
      tblGet forkResW.child.id tbl0 = none ∧
      forkResW.child.parent.threads = [forkResW.child.id] ∧
      forkResW.parentAfter.parent.children =
        th0.parent.children ++ [(forkResW.child.id, forkResW.child.parent.process_id)] :=
  c10_fork_single_fresh_id th0 ctx0 tbl0 [] forkResW rfl

/-! Claim C3: bounded printing and termination of unwind. -/

/-- An environment whose memory holds a self-referential base pointer at
0x1800 (the stored next-base-pointer equals 0x1800 itself) whose stored
return address 0x5000 lies inside the guard range. -/
def envBad : UnwindEnv :=
  { mem := fun a => if a = 0x1808 then 0x5000 else if a = 0x1800 then 0x1800 else 0
    stackLo := 0x1000, stackHi := 0x2000, guardLo := 0x4000, guardHi := 0x8000 }

/-- A captured frame whose base pointer is the self-referential 0x1800. -/
def frameBad : Frame := { rip := 0x5000, rsp := 0x1700, rbp := 0x1800 }

/-- Once the loop reaches the stalled state (prevIp = ip, self-referential
bp) with one frame printed and depth 2, it never finishes: the loop state
repeats verbatim every iteration. -/
lemma unwindLoop_stuck :
    ∀ (fuel : Nat) (printed : List (Nat × Nat)) (derefs : List Nat),
      (unwindLoop envBad 2 fuel 0x5000 0x1800 0x5000 1 printed derefs).completed = false := by
  intro fuel
  induction fuel with
  | zero => intro printed derefs; rfl
  | succ n ih =>
    intro printed derefs
    have hstep :
        unwindLoop envBad 2 (n + 1) 0x5000 0x1800 0x5000 1 printed derefs =
          unwindLoop envBad 2 n 0x5000 0x1800 0x5000 1 printed
            (0x1800 :: (0x1800 + 8) :: derefs) := by
      rw [unwindLoop]
      norm_num [envBad, check_within_stack]
    rw [hstep]
    exact ih printed (0x1800 :: (0x1800 + 8) :: derefs)

/-- C3: the spec claims unwind(depth) always terminates, even on a
self-referential base pointer.  On the concrete frame whose base pointer
chains to itself and whose stored return address stays in the guard range,
unwind(2) never completes, however many loop iterations it is given: the
"same instruction pointer" guard skips the duplicate frame but the loop
state then repeats forever. -/
theorem c3_unwind_nontermination :
    ∀ fuel : Nat, (Frame.unwind envBad frameBad 2 fuel).completed = false := by
  intro fuel
  cases fuel with
  | zero => rfl
  | succ n =>
    have hstep :
        Frame.unwind envBad frameBad 2 (n + 1) =
          unwindLoop envBad 2 n 0x5000 0x1800 0x5000 1
            [(printBack 0x5000, 0x1800)] (0x1800 :: (0x1800 + 8) :: [0x1800 + 8]) := by
      rw [Frame.unwind]
      norm_num [envBad, frameBad, check_within_stack, unwindLoop]
    rw [hstep]
    exact unwindLoop_stuck n _ _

/-! Claim C6: every dereference of unwind is range-checked. -/

/-- Every address the loop dereferences is the currently range-checked
base pointer or that base pointer plus one machine word. -/
lemma unwindLoop_derefs_checked {env : UnwindEnv} {depth : Nat} :
    ∀ (fuel prevIp bp ip curDepth : Nat) (printed : List (Nat × Nat)) (derefs : List Nat),
      (∀ a ∈ derefs, ∃ b, check_within_stack env b = true ∧ (a = b ∨ a = b + 8)) →
      ∀ a ∈ (unwindLoop env depth fuel prevIp bp ip curDepth printed derefs).derefs,
        ∃ b, check_within_stack env b = true ∧ (a = b ∨ a = b + 8) := by
  intro fuel
  induction fuel with
  | zero =>
    intro prevIp bp ip curDepth printed derefs hinv a ha
    rw [unwindLoop] at ha
    exact hinv a (List.mem_reverse.mp ha)
  | succ n ih =>
    intro prevIp bp ip curDepth printed derefs hinv a ha
    rw [unwindLoop] at ha
    by_cases hc : curDepth = depth ∨ ¬(env.guardLo ≤ ip ∧ ip ≤ env.guardHi)
    · rw [if_pos hc] at ha
      exact hinv a (List.mem_reverse.mp ha)
    · rw [if_neg hc] at ha
      by_cases hs : check_within_stack env bp
      · rw [if_pos hs] at ha
        refine ih _ _ _ _ _ _ ?_ a ha
        intro x hx
        simp only [List.mem_cons] at hx
        rcases hx with hx1 | hx2 | hx3
        · exact ⟨bp, hs, Or.inl hx1⟩
        · exact ⟨bp, hs, Or.inr hx2⟩
        · exact hinv x hx3
      · rw [if_neg hs] at ha
        exact hinv a (List.mem_reverse.mp ha)

/-- C6: if the captured base pointer is outside the valid stack range
(in particular just below the lower bound, exactly at a bound, or just
above the upper bound) unwind prints the "no stack trace available"
message and returns having dereferenced nothing; and in general every
address unwind dereferences is a base pointer that has passed the
stack-range check, or that base pointer plus one word. -/
theorem c6_unwind_range_checked :
    ∀ (env : UnwindEnv) (f : Frame) (depth fuel : Nat),
      (check_within_stack env f.rbp = false →
        Frame.unwind env f depth fuel =
          { printed := [], derefs := [], noTrace := true, completed := true }) ∧
      (∀ a ∈ (Frame.unwind env f depth fuel).derefs,
        ∃ b, check_within_stack env b = true ∧ (a = b ∨ a = b + 8)) := by
  intro env f depth fuel
  constructor
  · intro h
    rw [Frame.unwind, h]
    rfl
  · intro a ha
    rw [Frame.unwind] at ha
    by_cases hs : check_within_stack env f.rbp
    · rw [if_pos hs] at ha
      refine unwindLoop_derefs_checked fuel 0 f.rbp (env.mem (f.rbp + 8)) 0 [] _ ?_ a ha
      intro x hx
      simp only [List.mem_singleton] at hx
      exact ⟨f.rbp, hs, Or.inr hx⟩
    · rw [if_neg hs] at ha
      cases ha

/-- An environment and a frame whose base pointer sits exactly at the
lower stack bound. -/
def envBoundary : UnwindEnv :=
  { mem := fun _ => 0, stackLo := 0x1000, stackHi := 0x2000
    guardLo := 0x4000, guardHi := 0x8000 }

/-- A frame whose base pointer is exactly the lower stack bound (one of
the sentinel boundary cases of the claim). -/
def frameBoundary : Frame := { rip := 0x5000, rsp := 0x1000, rbp := 0x1000 }

/-- C6 witness: on the sentinel frame whose base pointer sits exactly at
the lower bound of the stack range, unwind prints the no-stack-trace
message and dereferences nothing. -/
theorem c6_unwind_range_checked_witness :
    Frame.unwind envBoundary frameBoundary 5 100 =
      { printed := [], derefs := [], noTrace := true, completed := true } :=
  (c6_unwind_range_checked envBoundary frameBoundary 5 100).1 rfl

end NeoOS
